import Mathlib

/-
Verification of the samaritan-memory memory-lifecycle engine.

This file embeds the core logic of src/samaritan_memory/qdrant.py and the
recall orchestration of src/samaritan_memory/server.py as executable Lean
definitions, and proves (or refutes) the specification claims about them.

Modelling conventions:
- Embedding vectors are lists of rationals; cosine similarity, as computed
  by the external Qdrant collaborator, is an abstract function in the
  environment.
- Every outbound HTTP call is given an outcome by the environment `Env`:
  `Except.error e` models a raised exception (httpx transport error or
  `raise_for_status`), `Except.ok true` models an HTTP 200 response, and
  `Except.ok false` models a non-2xx response that the Python code would
  observe via `status_code` without an exception.
- `math.exp` of the reranker log-probabilities is an abstract strictly
  positive function `rexp` carried in the environment (floating point is
  not modelled; only the fused-score structure is).
- Timestamps (`datetime.now(...).isoformat()`) are modelled as a logical
  clock `now : Nat` supplied to each mutating operation.
- `uuid.uuid4()` is modelled as a caller-supplied `freshId` together with
  freshness hypotheses (a fresh uuid collides with nothing).
-/

namespace SamaritanMemory

/-- Embedding vectors returned by the Ollama embedding endpoint
(`_get_embedding` in qdrant.py). -/
abbrev Vec := List ℚ

/-- Errors carried by raised exceptions. -/
abbrev Err := String

/-- The `Memory` dataclass of qdrant.py, as stored in a Qdrant point payload.
`tags = None` is normalised to `[]` by `__post_init__` / `tags or []`, so the
field is a plain list here. -/
structure Payload where
  id : String
  content : String
  memory_type : String
  timestamp : Nat
  importance : String
  status : String
  source : String
  tags : List String
  superseded_by : Option String
  supersedes : Option String
deriving DecidableEq

/-- A Qdrant point: point id, vector, payload. -/
structure Point where
  id : String
  vector : Vec
  payload : Payload
deriving DecidableEq

/-- The Qdrant collection contents. -/
abbrev Store := List Point

/-- Reranker gateway response for one document in `_rerank`:
either an HTTP 200 with the `top_logprobs` token map (insertion-ordered
association list), a non-200 status, or a raised exception. -/
inductive RerankResp
  | ok (top_logprobs : List (String × ℚ))
  | httpFail
  | exc
deriving DecidableEq

/-- Backend environment: embedding gateway, Qdrant similarity and call
outcomes, and the reranker gateway. Call outcomes model what the next
HTTP call of that kind returns (see the file header). -/
structure Env where
  embed : String → Except Err Vec
  sim : Vec → Vec → ℚ
  searchOutcome : Except Err Bool
  scrollOutcome : Except Err Bool
  upsertOutcome : Except Err Bool
  rr : String → RerankResp
  rexp : ℚ → ℚ

/-- Python truthiness of an optional string argument (`if supersedes:` and
`if memory_type:` treat both `None` and the empty string as false). -/
def strTruthy : Option String → Bool
  | none => false
  | some t => !(t == "")

/-- Qdrant `PUT /collections/{name}/points`: upsert by point id. -/
def upsertPoint (s : Store) (p : Point) : Store :=
  if s.any (fun q => q.id == p.id) then
    s.map (fun q => if q.id == p.id then p else q)
  else s ++ [p]

/-- Points of the store passing the filter whose similarity to the query
vector is at least the score threshold, paired with their scores. -/
def scoredPoints (env : Env) (s : Store) (emb : Vec) (f : Payload → Bool)
    (threshold : ℚ) : List (Point × ℚ) :=
  s.filterMap (fun p =>
    if f p.payload then
      if threshold ≤ env.sim emb p.vector then some (p, env.sim emb p.vector)
      else none
    else none)

/-- Stable insertion for a descending sort: the element is placed before the
first list element whose key is at most its own key. -/
def insertDescBy {α : Type} (key : α → ℚ) (x : α) : List α → List α
  | [] => [x]
  | y :: ys => if key y ≤ key x then x :: y :: ys else y :: insertDescBy key x ys

/-- Stable descending sort by a rational key. A stable sort's output is
uniquely determined, so this models Python's stable
`sort(key=..., reverse=True)` as well as Qdrant's score-ordered results. -/
def sortDescBy {α : Type} (key : α → ℚ) : List α → List α
  | [] => []
  | x :: xs => insertDescBy key x (sortDescBy key xs)

/-- Qdrant `points/search`: filtered nearest neighbours with a score
threshold, sorted by score descending, truncated to the limit. -/
def qdrantSearch (env : Env) (s : Store) (emb : Vec) (f : Payload → Bool)
    (limit : Nat) (threshold : ℚ) : List (Point × ℚ) :=
  (sortDescBy (fun pr => pr.2) (scoredPoints env s emb f threshold)).take limit

/-- Result of `find_similar_memory`: the dict
`{"id": payload["id"], "score": score, **payload}` (the payload's own `id`
key overwrites the first entry, so the dict is determined by score and
payload). -/
structure Found where
  score : ℚ
  payload : Payload
deriving DecidableEq

/-- Filter used by `find_similar_memory`: `status = "active"`, plus
`memory_type` when that argument is truthy. -/
def activeTypeFilter (memory_type : Option String) (p : Payload) : Bool :=
  (p.status == "active") &&
    (match memory_type with
     | none => true
     | some t => if t == "" then true else p.memory_type == t)

/-- `find_similar_memory(content, similarity_threshold, memory_type)` of
qdrant.py. The embedding call raises on failure; a non-200 search response
is absorbed into `None`. -/
def find_similar_memory (env : Env) (s : Store) (content : String)
    (similarity_threshold : ℚ) (memory_type : Option String) :
    Except Err (Option Found) :=
  match env.embed content with
  | .error e => .error e
  | .ok emb =>
    match env.searchOutcome with
    | .error e => .error e
    | .ok false => .ok none
    | .ok true =>
      match qdrantSearch env s emb (activeTypeFilter memory_type) 1
          similarity_threshold with
      | [] => .ok none
      | pr :: _ => .ok (some (Found.mk pr.2 pr.1.payload))

/-- The sequential field updates of `update_memory` applied to the loaded
payload (content, status, importance, superseded_by, then the timestamp
refresh). -/
def updatedPayload (base : Payload)
    (content status importance superseded_by : Option String)
    (now : Nat) : Payload :=
  let p1 := match content with
    | some c => { base with content := c }
    | none => base
  let p2 := match status with
    | some st => { p1 with status := st }
    | none => p1
  let p3 := match importance with
    | some im => { p2 with importance := im }
    | none => p2
  let p4 := match superseded_by with
    | some sb => { p3 with superseded_by := some sb }
    | none => p3
  { p4 with timestamp := now }

/-- `update_memory(memory_id, content, status, importance, superseded_by)` of
qdrant.py. A non-200 scroll response returns `False`; an unknown id returns
`False`; a content change re-embeds (raising on failure) before the upsert;
the upsert response status is not checked by the Python code, so a non-2xx
upsert (`.ok false`) leaves the store unchanged while the function still
returns `True`. -/
def update_memory (env : Env) (s : Store) (now : Nat) (memory_id : String)
    (content status importance superseded_by : Option String) :
    Except Err (Bool × Store) :=
  match env.scrollOutcome with
  | .error e => .error e
  | .ok false => .ok (false, s)
  | .ok true =>
    match s.find? (fun p => p.payload.id == memory_id) with
    | none => .ok (false, s)
    | some point =>
      match (match content with
             | some c => env.embed c
             | none => .ok point.vector : Except Err Vec) with
      | .error e => .error e
      | .ok vector =>
        match env.upsertOutcome with
        | .error e => .error e
        | .ok okStatus =>
          .ok (true,
            if okStatus then
              upsertPoint s
                (Point.mk memory_id vector
                  (updatedPayload point.payload content status importance
                    superseded_by now))
            else s)

/-- The `Memory(...)` construction inside `add_memory`. -/
def mkMemory (memory_id content memory_type importance source : String)
    (tags : List String) (supersedes : Option String) (timestamp : Nat) :
    Payload :=
  { id := memory_id, content := content, memory_type := memory_type,
    timestamp := timestamp, importance := importance, status := "active",
    source := source, tags := tags, superseded_by := none,
    supersedes := supersedes }

/-- The creation path of `add_memory` (lines 210-242 of qdrant.py): build the
Memory, embed (raising on failure), upsert (status unchecked), then, when
`supersedes` is truthy, mark the target superseded via `update_memory`,
whose boolean result is discarded (exceptions still propagate). -/
def addNewMemory (env : Env) (s : Store) (now : Nat) (freshId : String)
    (content memory_type importance source : String) (tags : List String)
    (supersedes : Option String) : Except Err (String × Store) :=
  let memory := mkMemory freshId content memory_type importance source tags
    supersedes now
  match env.embed content with
  | .error e => .error e
  | .ok embedding =>
    match env.upsertOutcome with
    | .error e => .error e
    | .ok okStatus =>
      let s1 := if okStatus then upsertPoint s (Point.mk freshId embedding memory)
                else s
      match supersedes with
      | some sid =>
        if sid == "" then .ok (freshId, s1)
        else
          match update_memory env s1 now sid none (some ("superseded")) none
              (some freshId) with
          | .error e => .error e
          | .ok r => .ok (freshId, r.2)
      | none => .ok (freshId, s1)

/-- `add_memory(content, memory_type, importance, source, tags, supersedes,
deduplicate, similarity_threshold)` of qdrant.py. When deduplication fires,
the existing record is updated in place with the new content and with
`importance if importance != "normal" else existing.get("importance", ...)`,
and the existing id is returned. -/
def add_memory (env : Env) (s : Store) (now : Nat) (freshId : String)
    (content memory_type importance source : String) (tags : List String)
    (supersedes : Option String) (deduplicate : Bool)
    (similarity_threshold : ℚ) : Except Err (String × Store) :=
  if deduplicate && !(strTruthy supersedes) then
    match find_similar_memory env s content similarity_threshold
        (some memory_type) with
    | .error e => .error e
    | .ok (some existing) =>
      match update_memory env s now existing.payload.id (some content) none
          (some (if importance != "normal" then importance
                 else existing.payload.importance)) none with
      | .error e => .error e
      | .ok r => .ok (existing.payload.id, r.2)
    | .ok none =>
      addNewMemory env s now freshId content memory_type importance source
        tags supersedes
  else
    addNewMemory env s now freshId content memory_type importance source
      tags supersedes

/-- One document handed to `_rerank`: its payload plus the similarity score
key, which `doc.get("score", 0.5)` reads with default `0.5`. -/
structure Doc where
  score : Option ℚ
  payload : Payload
deriving DecidableEq

/-- The token scan of `_rerank` over `top_logprobs.items()` (insertion
order): the last token normalising to a yes-form sets the affirmative
log-probability, the last normalising to a no-form sets the negative one. -/
def scanLogprobs (tops : List (String × ℚ)) : Option ℚ × Option ℚ :=
  tops.foldl
    (fun acc t =>
      let tl := t.1.toLower.trim
      if tl == "yes" || tl == "yes," || tl == "yes." then (some t.2, acc.2)
      else if tl == "no" || tl == "no," || tl == "no." then (acc.1, some t.2)
      else acc)
    (none, none)

/-- Fused relevance score of one candidate (lines 87-117 of qdrant.py):
two-outcome softmax when both log-probabilities are present, fixed 0.9 / 0.1
when only one is, otherwise (including non-200 responses and raised
exceptions) the candidate's original similarity score with default 0.5. -/
def fuseScore (e : ℚ → ℚ) (origScore : Option ℚ) (resp : RerankResp) : ℚ :=
  match resp with
  | .httpFail => origScore.getD (1/2)
  | .exc => origScore.getD (1/2)
  | .ok tops =>
    match scanLogprobs tops with
    | (some yl, some nl) => e yl / (e yl + e nl)
    | (some _, none) => 9/10
    | (none, some _) => 1/10
    | (none, none) => origScore.getD (1/2)

/-- The `scored_docs` list of `_rerank`, in input order. -/
def rerankScores (e : ℚ → ℚ) (rr : String → RerankResp) (docs : List Doc) :
    List (ℚ × Doc) :=
  docs.map (fun d => (fuseScore e d.score (rr d.payload.content), d))

/-- `_rerank`: score every document, then `sort(key=..., reverse=True)` —
a stable descending sort on the fused score. Each output pair carries the
`rerank_score` attached to the document. -/
def rerankDocs (e : ℚ → ℚ) (rr : String → RerankResp) (docs : List Doc) :
    List (ℚ × Doc) :=
  sortDescBy (fun pr => pr.1) (rerankScores e rr docs)

/-- One entry of a `search_memory` result: the candidate dict, plus the
`rerank_score` key when reranking ran. -/
structure OutDoc where
  doc : Doc
  rerank_score : Option ℚ
deriving DecidableEq

/-- Conjunctive filter of `search_memory`: each of status, memory_type and
importance contributes a condition when truthy. -/
def searchFilter (status : String) (memory_type importance : Option String)
    (p : Payload) : Bool :=
  (if status == "" then true else p.status == status) &&
  (match memory_type with
   | none => true
   | some t => if t == "" then true else p.memory_type == t) &&
  (match importance with
   | none => true
   | some i => if i == "" then true else p.importance == i)

/-- `search_memory(query, limit, memory_type, importance, status, min_score,
rerank)` of qdrant.py: embed the query (raising on failure), over-fetch
`limit * 3` candidates when reranking, `raise_for_status` on the search
response, optionally rerank (the model of `_rerank` is pure, so the
surrounding `try/except` absorbs nothing), truncate to `limit`. -/
def search_memory (env : Env) (s : Store) (query : String) (limit : Nat)
    (memory_type importance : Option String) (status : String)
    (min_score : ℚ) (rerank : Bool) : Except Err (List OutDoc) :=
  match env.embed query with
  | .error e => .error e
  | .ok emb =>
    match env.searchOutcome with
    | .error e => .error e
    | .ok false => .error ("raise_for_status")
    | .ok true =>
      let results := qdrantSearch env s emb
        (searchFilter status memory_type importance)
        (if rerank then limit * 3 else limit) min_score
      let candidates := results.map (fun pr => Doc.mk (some pr.2) pr.1.payload)
      let out :=
        if rerank && !candidates.isEmpty then
          (rerankDocs env.rexp env.rr candidates).map
            (fun pr => OutDoc.mk pr.2 (some pr.1))
        else
          candidates.map (fun d => OutDoc.mk d none)
      .ok (out.take limit)

/-- The merged result of the `recall` tool in server.py. -/
structure RecallResult where
  memories : List OutDoc
  entities : List String
  facts : List String
deriving DecidableEq

/-- `asyncio.gather(..., return_exceptions=True)` settling of one branch:
a raised exception becomes an empty list in the merged result. -/
def settleList {α : Type} (r : Except Err (List α)) : List α :=
  match r with
  | .ok v => v
  | .error _ => []

/-- The `recall` tool of server.py (lines 292-306): three independent
branches — `search_memory(query, limit, rerank=True)` over the store, and
the two graph-backend searches whose outcomes are opaque here — gathered
with `return_exceptions=True` and merged, each failed branch yielding an
empty list. -/
def recallTool (env : Env) (s : Store) (query : String) (limit : Nat)
    (entitiesOutcome factsOutcome : Except Err (List String)) : RecallResult :=
  { memories :=
      settleList (search_memory env s query limit none none ("active") (1/2) true)
  , entities := settleList entitiesOutcome
  , facts := settleList factsOutcome }

/-- Modelled from the spec: the rank of an importance value in the order
low < normal < high < critical. -/
def importanceRank (i : String) : Nat :=
  if i == "low" then 0
  else if i == "normal" then 1
  else if i == "high" then 2
  else if i == "critical" then 3
  else 0

/-- Modelled from the spec: "upgrading to the higher of existing/new
importance (promotion only — never downgrades)". -/
def specImportanceMax (a b : String) : String :=
  if importanceRank a ≤ importanceRank b then b else a

/-- Well-formed store: every point id equals its payload id (the code always
upserts with `"id": memory_id` and `payload["id"] = memory_id`), and payload
ids are pairwise distinct. -/
def WFStore (s : Store) : Prop :=
  (∀ p ∈ s, p.id = p.payload.id) ∧
  s.Pairwise (fun p q => p.payload.id ≠ q.payload.id)

/-- A deterministic environment used to instantiate theorems on concrete
inputs: every backend call succeeds, every embedding is `[1]`, every
similarity is `1`, every reranker call raises. -/
def demoEnv : Env :=
  { embed := fun _ => .ok [1]
  , sim := fun _ _ => 1
  , searchOutcome := .ok true
  , scrollOutcome := .ok true
  , upsertOutcome := .ok true
  , rr := fun _ => .exc
  , rexp := fun _ => 1 }

/-! ### Properties of the stable descending sort -/

theorem mem_insertDescBy {α : Type} {key : α → ℚ} {x a : α} {l : List α} :
    a ∈ insertDescBy key x l ↔ a = x ∨ a ∈ l := by
  induction l with
  | nil => simp [insertDescBy]
  | cons y ys ih =>
    rw [insertDescBy]
    by_cases h : key y ≤ key x
    · rw [if_pos h]
      simp [List.mem_cons]
    · rw [if_neg h]
      simp only [List.mem_cons, ih]
      tauto

theorem perm_insertDescBy {α : Type} (key : α → ℚ) (x : α) (l : List α) :
    List.Perm (insertDescBy key x l) (x :: l) := by
  induction l with
  | nil => exact List.Perm.refl _
  | cons y ys ih =>
    rw [insertDescBy]
    by_cases h : key y ≤ key x
    · rw [if_pos h]
    · rw [if_neg h]
      exact (List.Perm.cons y ih).trans (List.Perm.swap x y ys)

theorem perm_sortDescBy {α : Type} (key : α → ℚ) (l : List α) :
    List.Perm (sortDescBy key l) l := by
  induction l with
  | nil => exact List.Perm.refl _
  | cons x xs ih =>
    rw [sortDescBy]
    exact (perm_insertDescBy key x _).trans (List.Perm.cons x ih)

theorem mem_sortDescBy {α : Type} {key : α → ℚ} {a : α} {l : List α} :
    a ∈ sortDescBy key l ↔ a ∈ l :=
  (perm_sortDescBy key l).mem_iff

theorem sorted_insertDescBy {α : Type} {key : α → ℚ} {x : α} {l : List α}
    (hl : l.Pairwise (fun a b => key b ≤ key a)) :
    (insertDescBy key x l).Pairwise (fun a b => key b ≤ key a) := by
  induction l with
  | nil => simp [insertDescBy]
  | cons y ys ih =>
    rw [insertDescBy]
    rcases List.pairwise_cons.mp hl with ⟨hy, hys⟩
    by_cases h : key y ≤ key x
    · rw [if_pos h]
      refine List.pairwise_cons.mpr ⟨?_, hl⟩
      intro b hb
      rcases List.mem_cons.mp hb with rfl | hb
      · exact h
      · exact le_trans (hy b hb) h
    · rw [if_neg h]
      refine List.pairwise_cons.mpr ⟨?_, ih hys⟩
      intro b hb
      rcases mem_insertDescBy.mp hb with rfl | hb
      · exact le_of_not_le h
      · exact hy b hb

theorem sorted_sortDescBy {α : Type} (key : α → ℚ) (l : List α) :
    (sortDescBy key l).Pairwise (fun a b => key b ≤ key a) := by
  induction l with
  | nil => simp [sortDescBy]
  | cons x xs ih =>
    rw [sortDescBy]
    exact sorted_insertDescBy ih

theorem filter_insertDescBy {α : Type} (key : α → ℚ) (q : ℚ) (x : α)
    (l : List α) :
    (insertDescBy key x l).filter (fun a => key a == q) =
      (if key x == q then x :: l.filter (fun a => key a == q)
       else l.filter (fun a => key a == q)) := by
  induction l with
  | nil =>
    rw [insertDescBy]
    by_cases hx : key x == q
    · rw [if_pos hx]
      simp [List.filter_cons, hx]
    · rw [if_neg hx]
      simp [List.filter_cons, hx]
  | cons y ys ih =>
    rw [insertDescBy]
    by_cases h : key y ≤ key x
    · rw [if_pos h]
      by_cases hx : key x == q
      · rw [if_pos hx]
        simp [List.filter_cons, hx]
      · rw [if_neg hx]
        have hx' : (key x == q) = false := by
          simpa using hx
        simp [List.filter_cons, hx']
    · rw [if_neg h]
      by_cases hx : key x == q
      · rw [if_pos hx]
        have hxq : key x = q := by simpa using hx
        have hy : (key y == q) = false := by
          have : key y ≠ q := by
            intro hyq
            exact h (by rw [hyq, ← hxq])
          simpa using this
        rw [List.filter_cons, List.filter_cons]
        simp only [hy, ih, if_pos hx]
        simp
      · rw [if_neg hx]
        have hx' : (key x == q) = false := by simpa using hx
        rw [List.filter_cons, List.filter_cons]
        by_cases hy : key y == q
        · simp only [hy, ih, hx']
          simp
        · have hy' : (key y == q) = false := by simpa using hy
          simp only [hy', ih, hx']
          simp

theorem filter_sortDescBy {α : Type} (key : α → ℚ) (q : ℚ) (l : List α) :
    (sortDescBy key l).filter (fun a => key a == q) =
      l.filter (fun a => key a == q) := by
  induction l with
  | nil => rfl
  | cons x xs ih =>
    rw [sortDescBy, filter_insertDescBy, List.filter_cons]
    by_cases hx : key x == q
    · rw [if_pos hx, if_pos hx, ih]
    · rw [if_neg hx, if_neg hx, ih]

theorem sortDescBy_of_sorted {α : Type} {key : α → ℚ} {l : List α}
    (h : l.Pairwise (fun a b => key b ≤ key a)) : sortDescBy key l = l := by
  induction l with
  | nil => rfl
  | cons x xs ih =>
    rcases List.pairwise_cons.mp h with ⟨hx, hxs⟩
    rw [sortDescBy, ih hxs]
    cases xs with
    | nil => rfl
    | cons y ys =>
      rw [insertDescBy, if_pos (hx y (List.mem_cons_self y ys))]

/-! ### Properties of the Qdrant search model -/

theorem scoredPoints_mem {env : Env} {s : Store} {emb : Vec}
    {f : Payload → Bool} {threshold : ℚ} {pr : Point × ℚ}
    (h : pr ∈ scoredPoints env s emb f threshold) :
    pr.1 ∈ s ∧ f pr.1.payload = true ∧ threshold ≤ pr.2 := by
  unfold scoredPoints at h
  rcases List.mem_filterMap.mp h with ⟨p, hp, he⟩
  by_cases hf : f p.payload
  · rw [if_pos hf] at he
    by_cases hth : threshold ≤ env.sim emb p.vector
    · rw [if_pos hth] at he
      cases he
      exact ⟨hp, hf, hth⟩
    · rw [if_neg hth] at he
      cases he
  · rw [if_neg hf] at he
    cases he

theorem qdrantSearch_mem {env : Env} {s : Store} {emb : Vec}
    {f : Payload → Bool} {limit : Nat} {threshold : ℚ} {pr : Point × ℚ}
    (h : pr ∈ qdrantSearch env s emb f limit threshold) :
    pr.1 ∈ s ∧ f pr.1.payload = true ∧ threshold ≤ pr.2 :=
  scoredPoints_mem (mem_sortDescBy.mp (List.take_subset _ _ h))

theorem find_similar_payload {env : Env} {s : Store} {content : String}
    {threshold : ℚ} {mt : Option String} {ex : Found}
    (h : find_similar_memory env s content threshold mt = .ok (some ex)) :
    ∃ pt ∈ s, pt.payload = ex.payload ∧ activeTypeFilter mt pt.payload = true ∧
      threshold ≤ ex.score := by
  unfold find_similar_memory at h
  cases hemb : env.embed content with
  | error e => rw [hemb] at h; dsimp only at h; cases h
  | ok emb =>
    rw [hemb] at h
    dsimp only at h
    cases hso : env.searchOutcome with
    | error e => rw [hso] at h; dsimp only at h; cases h
    | ok b =>
      rw [hso] at h
      cases b with
      | false => dsimp only at h; cases h
      | true =>
        dsimp only at h
        cases hq : qdrantSearch env s emb (activeTypeFilter mt) 1 threshold with
        | nil => rw [hq] at h; cases h
        | cons pr rest =>
          rw [hq] at h
          dsimp only at h
          simp only [Except.ok.injEq, Option.some.injEq] at h
          subst h
          have hpr : pr ∈ qdrantSearch env s emb (activeTypeFilter mt) 1 threshold := by
            rw [hq]; exact List.mem_cons_self pr rest
          rcases qdrantSearch_mem hpr with ⟨h1, h2, h3⟩
          exact ⟨pr.1, h1, rfl, h2, h3⟩

/-- In a store with pairwise-distinct payload ids, the scroll lookup of
`update_memory` finds exactly the member point with that payload id. -/
theorem find_point_unique {s : Store}
    (hpw : s.Pairwise (fun p q => p.payload.id ≠ q.payload.id))
    {pt : Point} (hmem : pt ∈ s) :
    s.find? (fun p => p.payload.id == pt.payload.id) = some pt := by
  induction s with
  | nil => cases hmem
  | cons a as ih =>
    rcases List.pairwise_cons.mp hpw with ⟨ha, has⟩
    rcases List.mem_cons.mp hmem with rfl | hmem'
    · exact List.find?_cons_of_pos as (by simp)
    · have hne : a.payload.id ≠ pt.payload.id := ha pt hmem'
      rw [List.find?_cons_of_neg as (by simpa using hne)]
      exact ih has hmem'

/-- Successful path of `update_memory`: scroll finds the point, the new
vector resolves (re-embed on a content change, otherwise the stored vector),
and the upsert call returns HTTP 200. -/
theorem update_memory_found {env : Env} {s : Store} {now : Nat} {mid : String}
    {ct stt imp sb : Option String} {pt : Point} {vec : Vec}
    (hscroll : env.scrollOutcome = .ok true)
    (hfind : s.find? (fun p => p.payload.id == mid) = some pt)
    (hvec : (match ct with
             | some c => env.embed c
             | none => .ok pt.vector : Except Err Vec) = .ok vec)
    (hup : env.upsertOutcome = .ok true) :
    update_memory env s now mid ct stt imp sb =
      .ok (true, upsertPoint s
        (Point.mk mid vec (updatedPayload pt.payload ct stt imp sb now))) := by
  unfold update_memory
  rw [hscroll]
  dsimp only
  rw [hfind]
  dsimp only
  rw [hvec]
  dsimp only
  rw [hup]
  rfl

/-- Appending a point with a fresh payload id preserves store
well-formedness. -/
theorem wf_append {s : Store} {p : Point} (hwf : WFStore s)
    (hid : p.id = p.payload.id)
    (hfresh : ∀ q ∈ s, q.payload.id ≠ p.payload.id) :
    WFStore (s ++ [p]) := by
  constructor
  · intro q hq
    rcases List.mem_append.mp hq with h | h
    · exact hwf.1 q h
    · rw [List.mem_singleton.mp h]
      exact hid
  · rw [List.pairwise_append]
    refine ⟨hwf.2, List.pairwise_singleton _ _, ?_⟩
    intro a ha b hb
    rw [List.mem_singleton.mp hb]
    exact hfresh a ha

/-- Every element of the store after the replace branch of `upsertPoint` is
either the new point or an untouched point whose payload id differs from the
replaced id. -/
theorem mem_replaceStore {s : Store}
    (hwf1 : ∀ p ∈ s, p.id = p.payload.id) {aid : String} {newPt : Point} :
    ∀ r ∈ s.map (fun q => if q.id == aid then newPt else q),
      r = newPt ∨ (r ∈ s ∧ r.payload.id ≠ aid) := by
  intro r hr
  rcases List.mem_map.mp hr with ⟨q, hq, hrq⟩
  by_cases h : (q.id == aid) = true
  · rw [if_pos h] at hrq
    exact Or.inl hrq.symm
  · rw [if_neg h] at hrq
    rw [← hrq]
    refine Or.inr ⟨hq, ?_⟩
    intro hpid
    exact h (by rw [← hwf1 q hq] at hpid; simpa using hpid)

/-- Every entry of a successful `search_memory` result carries the payload of
some store point that passes the conjunctive filter. -/
theorem search_memory_results {env : Env} {s : Store} {q : String}
    {limit : Nat} {mt imp : Option String} {status : String} {ms : ℚ}
    {rk : Bool} {out : List OutDoc}
    (h : search_memory env s q limit mt imp status ms rk = .ok out) :
    ∀ o ∈ out, ∃ pt ∈ s, pt.payload = o.doc.payload ∧
      searchFilter status mt imp pt.payload = true := by
  unfold search_memory at h
  cases hemb : env.embed q with
  | error e => rw [hemb] at h; dsimp only at h; cases h
  | ok emb =>
    rw [hemb] at h
    dsimp only at h
    cases hso : env.searchOutcome with
    | error e => rw [hso] at h; dsimp only at h; cases h
    | ok b =>
      rw [hso] at h
      cases b with
      | false => dsimp only at h; cases h
      | true =>
        dsimp only at h
        simp only [Except.ok.injEq] at h
        subst h
        intro o ho
        have ho' := List.take_subset _ _ ho
        set results := qdrantSearch env s emb (searchFilter status mt imp)
          (if rk = true then limit * 3 else limit) ms with hres
        set candidates := results.map (fun pr => Doc.mk (some pr.2) pr.1.payload)
          with hcand
        by_cases hc : (rk && !candidates.isEmpty) = true
        · rw [if_pos hc] at ho'
          rcases List.mem_map.mp ho' with ⟨pr, hpr, hopr⟩
          have hpr2 : pr.2 ∈ candidates := by
            have h1 := mem_sortDescBy.mp hpr
            rcases List.mem_map.mp h1 with ⟨d, hd, hdd⟩
            rw [← hdd]
            exact hd
          rcases List.mem_map.mp hpr2 with ⟨r, hr, hrd⟩
          rcases qdrantSearch_mem hr with ⟨hr1, hr2, _⟩
          refine ⟨r.1, hr1, ?_, hr2⟩
          rw [← hopr]
          dsimp only
          rw [← hrd]
        · rw [if_neg hc] at ho'
          rcases List.mem_map.mp ho' with ⟨d, hd, hdo⟩
          rcases List.mem_map.mp hd with ⟨r, hr, hrd⟩
          rcases qdrantSearch_mem hr with ⟨hr1, hr2, _⟩
          refine ⟨r.1, hr1, ?_, hr2⟩
          rw [← hdo]
          dsimp only
          rw [← hrd]

/-- With a truthy status argument, the conjunctive search filter forces the
status field. -/
theorem searchFilter_status {status : String} {mt imp : Option String}
    {p : Payload} (hs : status ≠ "")
    (h : searchFilter status mt imp p = true) : p.status = status := by
  unfold searchFilter at h
  rw [if_neg (by simpa using hs)] at h
  simp only [Bool.and_eq_true] at h
  simpa using h.1.1

/-- When no store point carries the requested payload id (and the scroll call
does not raise), `update_memory` is a no-op returning `false`. -/
theorem update_memory_not_found {env : Env} {s : Store} {now : Nat}
    {mid : String} {ct stt imp sb : Option String} {b : Bool}
    (hscroll : env.scrollOutcome = .ok b)
    (habsent : ∀ pt ∈ s, pt.payload.id ≠ mid) :
    update_memory env s now mid ct stt imp sb = .ok (false, s) := by
  unfold update_memory
  rw [hscroll]
  cases b with
  | false => rfl
  | true =>
    dsimp only
    rw [List.find?_eq_none.mpr (fun pt hpt => by simpa using habsent pt hpt)]

/-- The creation path of `add_memory` when `supersedes` is truthy: the new
point is appended (its id being fresh), and the result is whatever the
supersession `update_memory` call leaves behind. -/
theorem add_memory_supersede_eq {env : Env} {s : Store} {now : Nat}
    {freshId content mt imp src : String} {tags : List String} {sid : String}
    {ded : Bool} {th : ℚ} {v : Vec}
    (hembed : env.embed content = .ok v)
    (hup : env.upsertOutcome = .ok true)
    (hsid : sid ≠ "")
    (hfreshPt : ∀ q ∈ s, q.id ≠ freshId) :
    add_memory env s now freshId content mt imp src tags (some sid) ded th =
      (match update_memory env
          (s ++ [Point.mk freshId v
            (mkMemory freshId content mt imp src tags (some sid) now)])
          now sid none (some ("superseded")) none (some freshId) with
       | .error e => .error e
       | .ok r => .ok (freshId, r.2)) := by
  have hsid' : (sid == "") = false := by simpa using hsid
  have hcond : (ded && !(strTruthy (some sid))) = false := by
    simp [strTruthy, hsid']
  have hany : (s.any (fun q => q.id == freshId)) = false := by
    rw [List.any_eq_false]
    intro q hq
    simpa using hfreshPt q hq
  unfold add_memory
  rw [if_neg (by simp [hcond])]
  unfold addNewMemory upsertPoint
  rw [hembed]
  dsimp only
  rw [hup]
  simp [hany, hsid']

/-- The full run of `add_memory` on an empty store: deduplication searches,
finds nothing, and the new point is stored. -/
theorem add_memory_empty {env : Env} {now : Nat} {fid c mt imp src : String}
    {tags : List String} {th : ℚ} {v : Vec}
    (he : env.embed c = .ok v)
    (hso : env.searchOutcome = .ok true)
    (hup : env.upsertOutcome = .ok true) :
    add_memory env [] now fid c mt imp src tags none true th =
      .ok (fid, [Point.mk fid v (mkMemory fid c mt imp src tags none now)]) := by
  unfold add_memory
  rw [if_pos (show (true && !(strTruthy none)) = true from rfl)]
  unfold find_similar_memory
  rw [he]
  dsimp only
  rw [hso]
  dsimp only
  unfold addNewMemory
  rw [he]
  dsimp only
  rw [hup]
  rfl

/-! ### Claim C9 -/

/-- C9: for every id not present in the store, `update_memory` returns false
without raising, and the store is unchanged afterwards — no record is created
or modified by the failed update. -/
theorem c9_update_unknown_noop (env : Env) (s : Store) (now : Nat)
    (mid : String) (ct stt imp sb : Option String) (b : Bool)
    (hscroll : env.scrollOutcome = .ok b)
    (habsent : ∀ pt ∈ s, pt.payload.id ≠ mid) :
    update_memory env s now mid ct stt imp sb = .ok (false, s) :=
  update_memory_not_found hscroll habsent

/-- Witness for C9 at a concrete input. -/
theorem c9_update_unknown_noop_witness :
    update_memory demoEnv [] 0 ("missing") (some ("y")) none none none =
      .ok (false, []) :=
  c9_update_unknown_noop demoEnv [] 0 ("missing") (some ("y")) none none none
    true rfl (fun pt hpt => absurd hpt (List.not_mem_nil pt))

/-! ### Claim C10 -/

/-- C10: `add_memory` with a nonexistent `supersedes` target still persists
the new record and returns its fresh id; the new record's `supersedes` field
carries the dangling target id, no existing record is modified, and the inner
`update_memory` call's `false` result is silently discarded. -/
theorem c10_dangling_supersede (env : Env) (s : Store) (now : Nat)
    (freshId content mt imp src : String) (tags : List String) (sid : String)
    (ded : Bool) (th : ℚ) (v : Vec) (b : Bool)
    (hembed : env.embed content = .ok v)
    (hup : env.upsertOutcome = .ok true)
    (hscroll : env.scrollOutcome = .ok b)
    (hsid : sid ≠ "")
    (habsent : ∀ pt ∈ s, pt.payload.id ≠ sid)
    (hfreshPt : ∀ pt ∈ s, pt.id ≠ freshId)
    (hsidfresh : sid ≠ freshId) :
    add_memory env s now freshId content mt imp src tags (some sid) ded th =
      .ok (freshId, s ++ [Point.mk freshId v
        (mkMemory freshId content mt imp src tags (some sid) now)]) ∧
    (mkMemory freshId content mt imp src tags (some sid) now).supersedes =
      some sid ∧
    update_memory env
      (s ++ [Point.mk freshId v
        (mkMemory freshId content mt imp src tags (some sid) now)])
      now sid none (some ("superseded")) none (some freshId) =
      .ok (false, s ++ [Point.mk freshId v
        (mkMemory freshId content mt imp src tags (some sid) now)]) := by
  have habsent1 : ∀ pt ∈ s ++ [Point.mk freshId v
      (mkMemory freshId content mt imp src tags (some sid) now)],
      pt.payload.id ≠ sid := by
    intro pt hpt
    rcases List.mem_append.mp hpt with h | h
    · exact habsent pt h
    · rw [List.mem_singleton.mp h]
      exact fun hc => hsidfresh (by simpa [mkMemory] using hc.symm)
  have hupd := @update_memory_not_found env
    (s ++ [Point.mk freshId v
      (mkMemory freshId content mt imp src tags (some sid) now)])
    now sid none (some ("superseded")) none (some freshId) b hscroll habsent1
  refine ⟨?_, rfl, hupd⟩
  rw [add_memory_supersede_eq hembed hup hsid hfreshPt, hupd]

/-- Witness for C10 at a concrete input. -/
theorem c10_dangling_supersede_witness :
    add_memory demoEnv [] 0 ("b") ("note") ("insight") ("normal")
      ("conversation") [] (some ("ghost")) true 1 =
      .ok (("b"), [Point.mk ("b") [1]
        (mkMemory ("b") ("note") ("insight") ("normal") ("conversation") []
          (some ("ghost")) 0)]) :=
  (c10_dangling_supersede demoEnv [] 0 ("b") ("note") ("insight") ("normal")
    ("conversation") [] ("ghost") true 1 [1] true rfl rfl rfl
    (by decide) (fun pt hpt => absurd hpt (List.not_mem_nil pt))
    (fun pt hpt => absurd hpt (List.not_mem_nil pt)) (by decide)).1

/-! ### Claim C2 -/

/-- C2 (amended): embedding-gateway failures during writes propagate as
raised errors — `add_memory` fails outright, `update_memory` either fails or
returns false with the store untouched, so a failed embed never yields a
stored record with a stale or missing vector; a vector-index upsert that
raises also propagates. However (conjunct 4, matching the counterexample) an
upsert completing with a non-2xx status is not checked: `add_memory` still
reports success with the fresh id while nothing was stored. -/
theorem c2_write_failure_propagation (env : Env) (s : Store) (now : Nat)
    (freshId content mt imp src : String) (tags : List String)
    (sup : Option String) (ded : Bool) (th : ℚ) (err : Err)
    (mid c2 : String) (stt imp2 sb : Option String) (sid : String) (v : Vec) :
    (env.embed content = .error err →
      add_memory env s now freshId content mt imp src tags sup ded th =
        .error err) ∧
    (env.embed c2 = .error err → env.scrollOutcome = .ok true →
      update_memory env s now mid (some c2) stt imp2 sb = .error err ∨
      update_memory env s now mid (some c2) stt imp2 sb = .ok (false, s)) ∧
    (env.embed content = .ok v → env.upsertOutcome = .error err → sid ≠ "" →
      add_memory env s now freshId content mt imp src tags (some sid) ded th =
        .error err) ∧
    (env.embed content = .ok v → env.upsertOutcome = .ok false →
      env.searchOutcome = .ok true →
      add_memory env [] now freshId content mt imp src tags none true th =
        .ok (freshId, [])) := by
  refine ⟨?_, ?_, ?_, ?_⟩
  · intro hembed
    unfold add_memory
    by_cases hc : (ded && !(strTruthy sup)) = true
    · rw [if_pos hc]
      unfold find_similar_memory
      rw [hembed]
    · rw [if_neg hc]
      unfold addNewMemory
      rw [hembed]
  · intro hembed hscroll
    unfold update_memory
    rw [hscroll]
    dsimp only
    cases hf : s.find? (fun p => p.payload.id == mid) with
    | none => exact Or.inr rfl
    | some pt =>
      dsimp only
      rw [hembed]
      exact Or.inl rfl
  · intro hembed hup hsid
    have hsid' : (sid == "") = false := by simpa using hsid
    unfold add_memory
    rw [if_neg (by simp [strTruthy, hsid'])]
    unfold addNewMemory
    rw [hembed]
    dsimp only
    rw [hup]
  · intro hembed hup hso
    unfold add_memory
    rw [if_pos (show (true && !(strTruthy none)) = true from rfl)]
    unfold find_similar_memory
    rw [hembed]
    dsimp only
    rw [hso]
    dsimp only
    unfold addNewMemory
    rw [hembed]
    dsimp only
    rw [hup]
    rfl

/-- Witness for C2 at concrete inputs: a raised embedding error propagates
out of `add_memory`. -/
theorem c2_write_failure_propagation_witness :
    add_memory
      { demoEnv with embed := fun _ => .error ("embed down") }
      [] 0 ("b") ("note") ("insight") ("normal") ("conversation") [] none
      true 1 = .error ("embed down") :=
  (c2_write_failure_propagation
    { demoEnv with embed := fun _ => .error ("embed down") }
    [] 0 ("b") ("note") ("insight") ("normal") ("conversation") [] none true 1
    ("embed down") ("x") ("y") none none none ("z") [1]).1 rfl

/-- Environment in which the Qdrant upsert call returns a non-2xx status
(no exception raised). -/
def badUpsertEnv : Env := { demoEnv with upsertOutcome := .ok false }

/-- Counterexample to C2 as stated: with the vector-index upsert failing via
a non-2xx response, `add_memory` still returns success with the fresh id
while the store remains empty — the write failure is silently absorbed, and
the record is lost. -/
theorem c2_counterexample :
    add_memory badUpsertEnv [] 0 ("b") ("note") ("insight") ("normal")
      ("conversation") [] none true 1 = .ok (("b"), []) ∧
    badUpsertEnv.upsertOutcome = .ok false := by
  constructor
  · rfl
  · rfl

/-! ### Claim C1 -/

/-- An active record of importance "critical", used as the existing
deduplication target in concrete runs. -/
def cPayloadCrit : Payload :=
  { id := "a", content := "old note", memory_type := "insight",
    timestamp := 0, importance := "critical", status := "active",
    source := "conversation", tags := [], superseded_by := none,
    supersedes := none }

/-- Counterexample to C1 as stated: deduplication fires (similarity 1 is at
the threshold 1), the existing record's importance is "critical", the caller
supplies "low" — and the merged record's importance becomes "low", not the
claimed maximum "critical". The merge can downgrade. -/
theorem c1_counterexample :
    add_memory demoEnv [Point.mk ("a") [1] cPayloadCrit] 1 ("b")
      ("updated note") ("insight") ("low") ("conversation") [] none true 1 =
      .ok (("a"), [Point.mk ("a") [1]
        (updatedPayload cPayloadCrit (some ("updated note")) none
          (some ("low")) none 1)]) ∧
    (updatedPayload cPayloadCrit (some ("updated note")) none (some ("low"))
      none 1).importance = "low" ∧
    specImportanceMax ("critical") ("low") = "critical" ∧
    ("low" : String) ≠ "critical" :=
  ⟨rfl, rfl, rfl, by decide⟩

/-- C1 (amended): when deduplication fires, the merged record's importance is
the caller's value whenever that value differs from the default "normal" —
even when it is lower than the existing record's — and the existing record's
value otherwise; it is not the maximum of the two. -/
theorem c1_importance_merge (env : Env) (s : Store) (now : Nat)
    (freshId content mt imp src : String) (tags : List String) (th : ℚ)
    (ex : Found) (v : Vec)
    (hwf : WFStore s)
    (hfind : find_similar_memory env s content th (some mt) = .ok (some ex))
    (hscroll : env.scrollOutcome = .ok true)
    (hembed : env.embed content = .ok v)
    (hup : env.upsertOutcome = .ok true) :
    ∃ s2, add_memory env s now freshId content mt imp src tags none true th =
        .ok (ex.payload.id, s2) ∧
      ∃ r ∈ s2, r.payload.id = ex.payload.id ∧
        r.payload.content = content ∧
        r.payload.importance =
          (if imp != "normal" then imp else ex.payload.importance) := by
  rcases find_similar_payload hfind with ⟨pt, hmem, hpl, _, _⟩
  have hfd : s.find? (fun p => p.payload.id == ex.payload.id) = some pt := by
    have h := find_point_unique hwf.2 hmem
    rw [hpl] at h
    exact h
  have hupd := @update_memory_found env s now ex.payload.id (some content)
    none (some (if imp != "normal" then imp else ex.payload.importance))
    none pt v hscroll hfd hembed hup
  refine ⟨upsertPoint s (Point.mk ex.payload.id v
    (updatedPayload pt.payload (some content) none
      (some (if imp != "normal" then imp else ex.payload.importance))
      none now)), ?_, ?_⟩
  · unfold add_memory
    rw [if_pos (show (true && !(strTruthy none)) = true from rfl), hfind]
    dsimp only
    rw [hupd]
  · have hbeq : (pt.id == ex.payload.id) = true := by
      rw [hwf.1 pt hmem, hpl]
      simp
    have hany : (s.any (fun q => q.id == ex.payload.id)) = true := by
      rw [List.any_eq_true]
      exact ⟨pt, hmem, hbeq⟩
    unfold upsertPoint
    rw [if_pos (by simp [hany])]
    refine ⟨Point.mk ex.payload.id v
      (updatedPayload pt.payload (some content) none
        (some (if imp != "normal" then imp else ex.payload.importance))
        none now),
      List.mem_map.mpr ⟨pt, hmem, by rw [if_pos hbeq]⟩, ?_, ?_, ?_⟩
    · show (updatedPayload pt.payload _ _ _ _ _).id = ex.payload.id
      simp only [updatedPayload]
      rw [hpl]
    · rfl
    · rfl

/-- Witness for C1 (amended) at a concrete input with a caller importance of
"low" against an existing "critical". -/
theorem c1_importance_merge_witness :
    ∃ s2, add_memory demoEnv [Point.mk ("a") [1] cPayloadCrit] 1 ("b")
        ("updated note") ("insight") ("low") ("conversation") [] none true 1 =
        .ok ((Found.mk 1 cPayloadCrit).payload.id, s2) ∧
      ∃ r ∈ s2, r.payload.id = (Found.mk 1 cPayloadCrit).payload.id ∧
        r.payload.content = "updated note" ∧
        r.payload.importance =
          (if ("low" : String) != "normal" then ("low" : String)
           else (Found.mk 1 cPayloadCrit).payload.importance) :=
  c1_importance_merge demoEnv [Point.mk ("a") [1] cPayloadCrit] 1 ("b")
    ("updated note") ("insight") ("low") ("conversation") [] 1
    (Found.mk 1 cPayloadCrit) [1] ⟨by decide, by decide⟩ rfl rfl rfl rfl

/-! ### Claim C3 -/

/-- A superseded record used in concrete runs. -/
def cPayloadSuperseded : Payload :=
  { id := "a", content := "old", memory_type := "insight", timestamp := 0,
    importance := "normal", status := "superseded", source := "conversation",
    tags := [], superseded_by := some ("b"), supersedes := none }

/-- Counterexample to C3 as stated: a record whose status is "superseded" is
returned to "active" by a subsequent `update_memory(id, status="active")`
call — the API can reactivate superseded records. -/
theorem c3_counterexample :
    update_memory demoEnv [Point.mk ("a") [1] cPayloadSuperseded] 2 ("a")
      none (some ("active")) none none =
      .ok (true, [Point.mk ("a") [1]
        (updatedPayload cPayloadSuperseded none (some ("active")) none none
          2)]) ∧
    cPayloadSuperseded.status = "superseded" ∧
    (updatedPayload cPayloadSuperseded none (some ("active")) none none
      2).status = "active" :=
  ⟨rfl, rfl, rfl⟩

/-- C3 (amended): a record created with a supersession link points at exactly
the caller-supplied target id, which is never its own freshly generated id;
the target's existence is not checked; and supersession is not absorbing —
for any superseded record, `update_memory` with status "active" succeeds and
sets the record's status back to "active". -/
theorem c3_supersession_properties (env : Env) (s : Store) (now : Nat)
    (freshId content mt imp src : String) (tags : List String) (sid : String)
    (pt : Point)
    (hsidfresh : sid ≠ freshId)
    (hwf : WFStore s) (hpt : pt ∈ s)
    (_hstatus : pt.payload.status = "superseded")
    (hscroll : env.scrollOutcome = .ok true)
    (hup : env.upsertOutcome = .ok true) :
    ((mkMemory freshId content mt imp src tags (some sid) now).supersedes =
        some sid ∧
      (mkMemory freshId content mt imp src tags (some sid) now).id ≠ sid) ∧
    update_memory env s now pt.payload.id none (some ("active")) none none =
      .ok (true, upsertPoint s (Point.mk pt.payload.id pt.vector
        (updatedPayload pt.payload none (some ("active")) none none now))) ∧
    (updatedPayload pt.payload none (some ("active")) none none now).status =
      "active" := by
  refine ⟨⟨rfl, fun h => hsidfresh h.symm⟩, ?_, rfl⟩
  exact update_memory_found hscroll (find_point_unique hwf.2 hpt) rfl hup

/-- Witness for C3 (amended) at a concrete superseded record. -/
theorem c3_supersession_properties_witness :
    ((mkMemory ("b") ("new") ("insight") ("normal") ("conversation") []
        (some ("ghost")) 2).supersedes = some ("ghost") ∧
      (mkMemory ("b") ("new") ("insight") ("normal") ("conversation") []
        (some ("ghost")) 2).id ≠ "ghost") ∧
    update_memory demoEnv [Point.mk ("a") [1] cPayloadSuperseded] 2
      ((Point.mk ("a") [1] cPayloadSuperseded).payload.id) none
      (some ("active")) none none =
      .ok (true, upsertPoint [Point.mk ("a") [1] cPayloadSuperseded]
        (Point.mk ((Point.mk ("a") [1] cPayloadSuperseded).payload.id)
          ((Point.mk ("a") [1] cPayloadSuperseded).vector)
          (updatedPayload ((Point.mk ("a") [1] cPayloadSuperseded).payload)
            none (some ("active")) none none 2))) ∧
    (updatedPayload ((Point.mk ("a") [1] cPayloadSuperseded).payload) none
      (some ("active")) none none 2).status = "active" :=
  c3_supersession_properties demoEnv [Point.mk ("a") [1] cPayloadSuperseded]
    2 ("b") ("new") ("insight") ("normal") ("conversation") [] ("ghost")
    (Point.mk ("a") [1] cPayloadSuperseded) (by decide)
    ⟨by decide, by decide⟩ (List.mem_singleton.mpr rfl) rfl rfl rfl

/-! ### Claim C6 -/

/-- C6: the fused score of each reranking candidate follows the claimed
priority order — two-outcome softmax when both log-probabilities were found,
0.9 with only the affirmative, 0.1 with only the negative, and the original
similarity score (default 0.5) when neither is available or the gateway call
failed (non-200 response or raised exception); and `_rerank` scores every
candidate exactly this way (its output is a permutation of the in-order
scored list). -/
theorem c6_fused_score (e : ℚ → ℚ) (rr : String → RerankResp) (o : Option ℚ)
    (tops : List (String × ℚ)) (yl nl : ℚ) (docs : List Doc) :
    (scanLogprobs tops = (some yl, some nl) →
      fuseScore e o (RerankResp.ok tops) = e yl / (e yl + e nl)) ∧
    (scanLogprobs tops = (some yl, none) →
      fuseScore e o (RerankResp.ok tops) = 9/10) ∧
    (scanLogprobs tops = (none, some nl) →
      fuseScore e o (RerankResp.ok tops) = 1/10) ∧
    (scanLogprobs tops = (none, none) →
      fuseScore e o (RerankResp.ok tops) = o.getD (1/2)) ∧
    fuseScore e o RerankResp.httpFail = o.getD (1/2) ∧
    fuseScore e o RerankResp.exc = o.getD (1/2) ∧
    List.Perm (rerankDocs e rr docs)
      (docs.map (fun d => (fuseScore e d.score (rr d.payload.content), d))) := by
  refine ⟨?_, ?_, ?_, ?_, rfl, rfl, perm_sortDescBy _ _⟩
  · intro h
    simp [fuseScore, h]
  · intro h
    simp [fuseScore, h]
  · intro h
    simp [fuseScore, h]
  · intro h
    simp [fuseScore, h]

/-- Witness for C6 at a concrete input: an empty token map yields the
fallback to the original similarity score. -/
theorem c6_fused_score_witness :
    scanLogprobs [] = (none, none) ∧
    fuseScore (fun x => x) (some 1) (RerankResp.ok []) =
      (some 1 : Option ℚ).getD (1/2) :=
  ⟨rfl, (c6_fused_score (fun x => x) (fun _ => RerankResp.exc) (some 1) [] 0 0
    []).2.2.2.1 rfl⟩

/-! ### Claim C7 -/

/-- C7: reranking is a stable descending sort on the fused score — the output
is sorted descending, candidates with equal fused scores keep their original
relative order (the filter on any fixed score is unchanged), equal gateway
responses give identical output (determinism), and when every gateway call
fails on an input already ordered by similarity, the output order equals the
input order. -/
theorem c7_stable_rerank (e : ℚ → ℚ) (rr rr1 rr2 : String → RerankResp)
    (docs : List Doc) (q : ℚ) :
    (rerankDocs e rr docs).Pairwise (fun a b => b.1 ≤ a.1) ∧
    (rerankDocs e rr docs).filter (fun pr => pr.1 == q) =
      (rerankScores e rr docs).filter (fun pr => pr.1 == q) ∧
    ((∀ c, rr1 c = rr2 c) → rerankDocs e rr1 docs = rerankDocs e rr2 docs) ∧
    ((∀ c, rr c = RerankResp.exc) →
      docs.Pairwise (fun a b => b.score.getD (1/2) ≤ a.score.getD (1/2)) →
      (rerankDocs e rr docs).map Prod.snd = docs) := by
  refine ⟨sorted_sortDescBy _ _, filter_sortDescBy _ _ _, ?_, ?_⟩
  · intro hrr
    unfold rerankDocs rerankScores
    have hm : docs.map (fun d => (fuseScore e d.score (rr1 d.payload.content), d)) =
        docs.map (fun d => (fuseScore e d.score (rr2 d.payload.content), d)) :=
      List.map_congr_left (fun d _ => by rw [hrr])
    rw [hm]
  · intro hexc hsorted
    unfold rerankDocs
    have hmap : rerankScores e rr docs =
        docs.map (fun d => (d.score.getD (1/2), d)) := by
      unfold rerankScores
      exact List.map_congr_left (fun d _ => by rw [hexc d.payload.content]; rfl)
    rw [hmap, sortDescBy_of_sorted (List.pairwise_map.mpr hsorted),
      List.map_map]
    simp [Function.comp_def]

/-- Documents used in concrete reranking runs. -/
def demoDocA : Doc := { score := some 2, payload := cPayloadCrit }

/-- A second document with a lower similarity score. -/
def demoDocB : Doc := { score := some 1, payload := cPayloadSuperseded }

/-- Witness for C7 at a concrete input: with every gateway call failing, a
similarity-ordered candidate list is returned unchanged. -/
theorem c7_stable_rerank_witness :
    (rerankDocs (fun x => x) (fun _ => RerankResp.exc)
      [demoDocA, demoDocB]).map Prod.snd = [demoDocA, demoDocB] :=
  (c7_stable_rerank (fun x => x) (fun _ => RerankResp.exc)
    (fun _ => RerankResp.exc) (fun _ => RerankResp.exc) [demoDocA, demoDocB]
    0).2.2.2 (fun _ => rfl) (by decide)

/-! ### Claim C8 -/

/-- C8: the three recall branches are independent and fail independently — a
failed graph branch contributes an empty list while a successful memory
branch is returned intact; a failed memory branch contributes an empty list
while the graph branches are returned intact; each component of the merged
result depends only on its own branch's outcome; and `recallTool` never
fails as a whole (it is a total function into `RecallResult`). -/
theorem c8_recall_partial_failure (env : Env) (s : Store) (q : String)
    (lim : Nat) (eo eo' fo fo' : Except Err (List String)) (e1 e2 : Err)
    (ms : List OutDoc) (err : Err) :
    (search_memory env s q lim none none ("active") (1/2) true = .ok ms →
      recallTool env s q lim (.error e1) (.error e2) =
        RecallResult.mk ms [] []) ∧
    (search_memory env s q lim none none ("active") (1/2) true = .error err →
      recallTool env s q lim eo fo =
        RecallResult.mk [] (settleList eo) (settleList fo)) ∧
    (recallTool env s q lim eo fo).memories =
      (recallTool env s q lim eo' fo').memories ∧
    (recallTool env s q lim eo fo).entities =
      (recallTool env s q lim eo fo').entities ∧
    (recallTool env s q lim eo fo).facts =
      (recallTool env s q lim eo' fo).facts := by
  refine ⟨?_, ?_, rfl, rfl, rfl⟩
  · intro h
    unfold recallTool
    rw [h]
    rfl
  · intro h
    unfold recallTool
    rw [h]
    rfl

/-- Witness for C8 at a concrete input: both graph branches down, the memory
branch intact. -/
theorem c8_recall_partial_failure_witness :
    recallTool demoEnv [] ("x") 5 (.error ("neo4j down")) (.error ("neo4j down 2")) =
      RecallResult.mk [] [] [] :=
  (c8_recall_partial_failure demoEnv [] ("x") 5 (.error ("neo4j down"))
    (.error ("neo4j down")) (.error ("neo4j down 2")) (.error ("neo4j down 2"))
    ("e1") ("e2") [] ("err")).1 rfl

/-! ### Claim C4 -/

/-- C4: after `add_memory(content, supersedes=A.id)` returns the fresh id B,
the store satisfies: A's record has status "superseded" and
`superseded_by = B`; B's record has `supersedes = A.id`; and every
`search_memory` with the default status filter "active" excludes A. -/
theorem c4_supersession (env : Env) (s : Store) (now : Nat)
    (freshId content mt imp src : String) (tags : List String)
    (ded : Bool) (th : ℚ) (v : Vec) (ptA : Point)
    (hwf : WFStore s) (hA : ptA ∈ s) (haid : ptA.payload.id ≠ "")
    (hscroll : env.scrollOutcome = .ok true)
    (hup : env.upsertOutcome = .ok true)
    (hembed : env.embed content = .ok v)
    (hfresh : ∀ q ∈ s, q.payload.id ≠ freshId) :
    ∃ s2, add_memory env s now freshId content mt imp src tags
        (some ptA.payload.id) ded th = .ok (freshId, s2) ∧
      (∃ a ∈ s2, a.payload.id = ptA.payload.id ∧
        a.payload.status = "superseded" ∧
        a.payload.superseded_by = some freshId) ∧
      (∃ bpt ∈ s2, bpt.payload.id = freshId ∧
        bpt.payload.supersedes = some ptA.payload.id) ∧
      (∀ q2 lim mt2 imp2 ms rk out,
        search_memory env s2 q2 lim mt2 imp2 ("active") ms rk = .ok out →
        ∀ o ∈ out, o.doc.payload.id ≠ ptA.payload.id) := by
  have hfreshPt : ∀ q ∈ s, q.id ≠ freshId := fun q hq => by
    rw [hwf.1 q hq]
    exact hfresh q hq
  have haidfresh : ptA.payload.id ≠ freshId := hfresh ptA hA
  have hwf1 : WFStore (s ++ [Point.mk freshId v
      (mkMemory freshId content mt imp src tags (some ptA.payload.id) now)]) :=
    wf_append hwf rfl (fun q hq => hfresh q hq)
  have hA1 : ptA ∈ s ++ [Point.mk freshId v
      (mkMemory freshId content mt imp src tags (some ptA.payload.id) now)] :=
    List.mem_append_left _ hA
  have hfd := find_point_unique hwf1.2 hA1
  have hupd := @update_memory_found env
    (s ++ [Point.mk freshId v
      (mkMemory freshId content mt imp src tags (some ptA.payload.id) now)])
    now ptA.payload.id none (some ("superseded")) none (some freshId)
    ptA ptA.vector hscroll hfd rfl hup
  have hbeqA : (ptA.id == ptA.payload.id) = true := by
    rw [hwf.1 ptA hA]
    simp
  have hanys1 : ((s ++ [Point.mk freshId v
      (mkMemory freshId content mt imp src tags (some ptA.payload.id) now)]).any
      (fun q => q.id == ptA.payload.id)) = true := by
    rw [List.any_eq_true]
    exact ⟨ptA, hA1, hbeqA⟩
  refine ⟨(s ++ [Point.mk freshId v
      (mkMemory freshId content mt imp src tags (some ptA.payload.id) now)]).map
      (fun q => if q.id == ptA.payload.id then
        Point.mk ptA.payload.id ptA.vector
          (updatedPayload ptA.payload none (some ("superseded")) none
            (some freshId) now)
        else q), ?_, ?_, ?_, ?_⟩
  · rw [add_memory_supersede_eq hembed hup haid hfreshPt, hupd]
    unfold upsertPoint
    rw [if_pos hanys1]
  · refine ⟨Point.mk ptA.payload.id ptA.vector
      (updatedPayload ptA.payload none (some ("superseded")) none
        (some freshId) now),
      List.mem_map.mpr ⟨ptA, hA1, by rw [if_pos hbeqA]⟩, rfl, rfl, rfl⟩
  · refine ⟨Point.mk freshId v
      (mkMemory freshId content mt imp src tags (some ptA.payload.id) now),
      List.mem_map.mpr ⟨Point.mk freshId v
        (mkMemory freshId content mt imp src tags (some ptA.payload.id) now),
        List.mem_append_right _ (List.mem_singleton.mpr rfl), ?_⟩, rfl, rfl⟩
    rw [if_neg (by simp; exact fun h => haidfresh h.symm)]
  · intro q2 lim mt2 imp2 ms rk out hsearch o ho hoid
    rcases search_memory_results hsearch o ho with ⟨pt, hptmem, hpl, hflt⟩
    have hstat : pt.payload.status = "active" :=
      searchFilter_status (by decide) hflt
    rcases mem_replaceStore hwf1.1 pt hptmem with heq | ⟨_, hne⟩
    · rw [heq] at hstat
      simp [updatedPayload] at hstat
    · exact hne (by rw [hpl]; exact hoid)

/-- Witness for C4 at a concrete input. -/
theorem c4_supersession_witness :
    ∃ s2, add_memory demoEnv [Point.mk ("a") [1] cPayloadCrit] 3 ("b")
        ("new fact") ("insight") ("normal") ("conversation") []
        (some ((Point.mk ("a") [1] cPayloadCrit).payload.id)) true 1 =
        .ok (("b"), s2) ∧
      (∃ a ∈ s2, a.payload.id = (Point.mk ("a") [1] cPayloadCrit).payload.id ∧
        a.payload.status = "superseded" ∧
        a.payload.superseded_by = some ("b")) ∧
      (∃ bpt ∈ s2, bpt.payload.id = "b" ∧
        bpt.payload.supersedes =
          some ((Point.mk ("a") [1] cPayloadCrit).payload.id)) ∧
      (∀ q2 lim mt2 imp2 ms rk out,
        search_memory demoEnv s2 q2 lim mt2 imp2 ("active") ms rk = .ok out →
        ∀ o ∈ out,
          o.doc.payload.id ≠ (Point.mk ("a") [1] cPayloadCrit).payload.id) :=
  c4_supersession demoEnv [Point.mk ("a") [1] cPayloadCrit] 3 ("b")
    ("new fact") ("insight") ("normal") ("conversation") [] true 1 [1]
    (Point.mk ("a") [1] cPayloadCrit) ⟨by decide, by decide⟩
    (List.mem_singleton.mpr rfl) (by decide) rfl rfl rfl (by decide)

/-! ### Claim C5 -/

/-- C5: on a fresh store, two `add_memory` calls with `deduplicate=true`, no
`supersedes`, and threshold 0.85 within the same `memory_type` scope return
the same id when the similarity between the second content's embedding and
the stored record is at least 0.85, and the total number of stored records
does not increase. -/
theorem c5_dedup_returns_same_id (env : Env) (n1 n2 : Nat) (id1 id2 : String)
    (c1 c2 mt imp1 imp2 src1 src2 : String) (tags1 tags2 : List String)
    (v1 v2 : Vec)
    (hso : env.searchOutcome = .ok true)
    (hscroll : env.scrollOutcome = .ok true)
    (hup : env.upsertOutcome = .ok true)
    (he1 : env.embed c1 = .ok v1)
    (he2 : env.embed c2 = .ok v2)
    (hsim : (85/100 : ℚ) ≤ env.sim v2 v1) :
    ∃ s1, add_memory env [] n1 id1 c1 mt imp1 src1 tags1 none true (85/100) =
        .ok (id1, s1) ∧
      ∃ s2, add_memory env s1 n2 id2 c2 mt imp2 src2 tags2 none true
          (85/100) = .ok (id1, s2) ∧ s2.length = s1.length := by
  have h1 := @add_memory_empty env n1 id1 c1 mt imp1 src1 tags1
    (85/100 : ℚ) v1 he1 hso hup
  refine ⟨[Point.mk id1 v1 (mkMemory id1 c1 mt imp1 src1 tags1 none n1)],
    h1, ?_⟩
  have hfilter : activeTypeFilter (some mt)
      (Point.mk id1 v1 (mkMemory id1 c1 mt imp1 src1 tags1 none n1)).payload =
      true := by
    simp [activeTypeFilter, mkMemory]
  have hscored : scoredPoints env
      [Point.mk id1 v1 (mkMemory id1 c1 mt imp1 src1 tags1 none n1)] v2
      (activeTypeFilter (some mt)) (85/100) =
      [(Point.mk id1 v1 (mkMemory id1 c1 mt imp1 src1 tags1 none n1),
        env.sim v2 v1)] := by
    unfold scoredPoints
    simp [hfilter, hsim]
  have hq : qdrantSearch env
      [Point.mk id1 v1 (mkMemory id1 c1 mt imp1 src1 tags1 none n1)] v2
      (activeTypeFilter (some mt)) 1 (85/100) =
      [(Point.mk id1 v1 (mkMemory id1 c1 mt imp1 src1 tags1 none n1),
        env.sim v2 v1)] := by
    unfold qdrantSearch
    rw [hscored]
    rfl
  have hfs : find_similar_memory env
      [Point.mk id1 v1 (mkMemory id1 c1 mt imp1 src1 tags1 none n1)] c2
      (85/100) (some mt) =
      .ok (some (Found.mk (env.sim v2 v1)
        (Point.mk id1 v1 (mkMemory id1 c1 mt imp1 src1 tags1 none n1)).payload)) := by
    unfold find_similar_memory
    rw [he2]
    dsimp only
    rw [hso]
    dsimp only
    rw [hq]
  have hfd : [Point.mk id1 v1 (mkMemory id1 c1 mt imp1 src1 tags1 none n1)].find?
      (fun p => p.payload.id ==
        (Point.mk id1 v1 (mkMemory id1 c1 mt imp1 src1 tags1 none n1)).payload.id) =
      some (Point.mk id1 v1 (mkMemory id1 c1 mt imp1 src1 tags1 none n1)) :=
    List.find?_cons_of_pos _ (by simp)
  have hupd := @update_memory_found env
    [Point.mk id1 v1 (mkMemory id1 c1 mt imp1 src1 tags1 none n1)] n2
    ((Point.mk id1 v1 (mkMemory id1 c1 mt imp1 src1 tags1 none n1)).payload.id)
    (some c2) none
    (some (if imp2 != "normal" then imp2
      else (Point.mk id1 v1
        (mkMemory id1 c1 mt imp1 src1 tags1 none n1)).payload.importance))
    none (Point.mk id1 v1 (mkMemory id1 c1 mt imp1 src1 tags1 none n1)) v2
    hscroll hfd he2 hup
  refine ⟨upsertPoint
    [Point.mk id1 v1 (mkMemory id1 c1 mt imp1 src1 tags1 none n1)]
    (Point.mk
      ((Point.mk id1 v1 (mkMemory id1 c1 mt imp1 src1 tags1 none n1)).payload.id)
      v2
      (updatedPayload
        (Point.mk id1 v1 (mkMemory id1 c1 mt imp1 src1 tags1 none n1)).payload
        (some c2) none
        (some (if imp2 != "normal" then imp2
          else (Point.mk id1 v1
            (mkMemory id1 c1 mt imp1 src1 tags1 none n1)).payload.importance))
        none n2)), ?_, ?_⟩
  · unfold add_memory
    rw [if_pos (show (true && !(strTruthy none)) = true from rfl), hfs]
    dsimp only
    rw [hupd]
    rfl
  · unfold upsertPoint
    rw [if_pos (by simp [mkMemory])]
    simp

/-- Witness for C5 at a concrete input: the same content written twice. -/
theorem c5_dedup_returns_same_id_witness :
    ∃ s1, add_memory demoEnv [] 1 ("m1") ("Prefer dark mode") ("preference")
        ("normal") ("conversation") [] none true (85/100) = .ok (("m1"), s1) ∧
      ∃ s2, add_memory demoEnv s1 2 ("m2") ("Prefer dark mode") ("preference")
          ("normal") ("conversation") [] none true (85/100) =
          .ok (("m1"), s2) ∧ s2.length = s1.length :=
  c5_dedup_returns_same_id demoEnv 1 2 ("m1") ("m2") ("Prefer dark mode")
    ("Prefer dark mode") ("preference") ("normal") ("normal")
    ("conversation") ("conversation") [] [] [1] [1] rfl rfl rfl rfl rfl
    (by show (85/100 : ℚ) ≤ 1; norm_num)

end SamaritanMemory
